import Mathlib

/-!
Shallow embedding of `src/reference_model/convolution_py.py` (class
`ConvolutionLayer`): construction-time validation, output-dimension and
padding derivation for VALID/SAME modes, and the six-nested-loop forward
pass with implicit zero padding.

Modelling conventions:
* Python floats are modelled as exact rationals (`ℚ`); the loop
  accumulation `current_sum += pixel * weight` over `in_c`, `k_h`, `k_w`
  is written as the triple sum it computes (addition on `ℚ` is
  associative and commutative).
* Python `//` on a possibly negative numerator is floor division, i.e.
  `Int` division `/` (`Int.ediv`) for a positive divisor; `int(x / 2.0)`
  truncates toward zero, i.e. `Int.tdiv _ 2`; `math.ceil(h / s)` for
  naturals is `(h + s - 1) / s`.
* Python list indexing is modelled with `List.getD`; every index the
  rectangular-input claims dereference is proved in bounds, and the
  ragged-input hazard (an access `getD` silently defaults where Python
  would raise `IndexError`) is analysed explicitly.
* `raise ValueError(msg)` is modelled as `Except.error msg`.
-/

namespace CNN

abbrev Mat := List (List ℚ)
abbrev Tensor3 := List Mat
abbrev Tensor4 := List Tensor3

/-- The engine state stored by `ConvolutionLayer.__init__` on success. -/
structure ConvolutionLayer where
  kernel_size : ℕ
  stride : ℕ
  padding_mode : ℕ
  input_channels : ℕ
  output_channels : ℕ
  kernel_weights : Tensor4
deriving Repr, DecidableEq

/-- Innermost validation loop of `__init__`: each kernel row must have
`kernel_size` entries. -/
def checkRowWidths (kernel_size : ℕ) : List (List ℚ) → Except String Unit
  | [] => .ok ()
  | k_row :: rest =>
    if k_row.length ≠ kernel_size then
      .error "Kernel weights width dimension mismatch."
    else checkRowWidths kernel_size rest

/-- Middle validation loop of `__init__`: each per-input-channel matrix
must have `kernel_size` rows, each of width `kernel_size`. -/
def checkChannelMats (kernel_size : ℕ) : List (List (List ℚ)) → Except String Unit
  | [] => .ok ()
  | ic_weights :: rest =>
    if ic_weights.length ≠ kernel_size then
      .error "Kernel weights height dimension mismatch."
    else
      match checkRowWidths kernel_size ic_weights with
      | .error e => .error e
      | .ok () => checkChannelMats kernel_size rest

/-- Outer validation loop of `__init__`: each per-output-channel block
must have `input_channels` matrices, each checked by `checkChannelMats`. -/
def checkOuterWeights (input_channels kernel_size : ℕ) : Tensor4 → Except String Unit
  | [] => .ok ()
  | oc_weights :: rest =>
    if oc_weights.length ≠ input_channels then
      .error "Kernel weights input_channels dimension mismatch."
    else
      match checkChannelMats kernel_size oc_weights with
      | .error e => .error e
      | .ok () => checkOuterWeights input_channels kernel_size rest

/-- Constructor `ConvolutionLayer.__init__`: validation checks in source
order, then the constructed engine. -/
def ConvolutionLayer.init (kernel_size stride padding_mode input_channels output_channels : ℕ)
    (initial_kernel_weights : Tensor4) : Except String ConvolutionLayer :=
  if kernel_size = 0 then
    .error "Kernel size must be a positive integer."
  else if stride = 0 then
    .error "Stride must be a positive integer."
  else if ¬ (padding_mode = 0 ∨ padding_mode = 1) then
    .error "Padding mode must be 0 (VALID) or 1 (SAME)."
  else if input_channels = 0 then
    .error "Input channels must be a positive integer."
  else if output_channels = 0 then
    .error "Output channels must be a positive integer."
  else if initial_kernel_weights.isEmpty then
    .error "Initial kernel weights cannot be empty."
  else if initial_kernel_weights.length ≠ output_channels then
    .error "Kernel weights outer dimension mismatch."
  else
    match checkOuterWeights input_channels kernel_size initial_kernel_weights with
    | .error e => .error e
    | .ok () =>
      .ok ⟨kernel_size, stride, padding_mode, input_channels, output_channels,
           initial_kernel_weights⟩

/-- Helper `_calculate_padding_amount`:
`max(0, int(((target - 1) * stride + kernel_size - input_dim) / 2))`;
Python `int` of an exact half-integer quotient truncates toward zero (`Int.tdiv`). -/
def ConvolutionLayer.calculate_padding_amount (l : ConvolutionLayer)
    (input_dim target_output_dim : ℤ) : ℤ :=
  max 0 (Int.tdiv ((target_output_dim - 1) * (l.stride : ℤ) + (l.kernel_size : ℤ) - input_dim) 2)

/-- Lines 57–70 of `forward`: output height/width and the top/left padding
amounts, per padding mode.  `Int` division `/` is floor division for the
positive divisor `stride`, matching Python `//`; `math.ceil(h / s)` on
naturals is `(h + s - 1) / s`. -/
def ConvolutionLayer.outputGeometry (l : ConvolutionLayer) (input_height input_width : ℕ) :
    Except String (ℤ × ℤ × ℤ × ℤ) :=
  if l.padding_mode = 0 then
    .ok (((input_height : ℤ) - (l.kernel_size : ℤ)) / (l.stride : ℤ) + 1,
         ((input_width : ℤ) - (l.kernel_size : ℤ)) / (l.stride : ℤ) + 1,
         0, 0)
  else if l.padding_mode = 1 then
    let output_height : ℤ := ((input_height + l.stride - 1) / l.stride : ℕ)
    let output_width : ℤ := ((input_width + l.stride - 1) / l.stride : ℕ)
    .ok (output_height, output_width,
         l.calculate_padding_amount input_height output_height,
         l.calculate_padding_amount input_width output_width)
  else
    .error "Invalid padding mode internal state."

/-- One indexing step `t[c][h][w]` on a 3-D nested list. -/
def cellAt (t : Tensor3) (c h w : ℕ) : ℚ :=
  ((t.getD c []).getD h []).getD w 0

/-- Weight lookup `kernel_weights[oc][ic][kh][kw]`. -/
def weightAt (w : Tensor4) (oc ic kh kw : ℕ) : ℚ :=
  (((w.getD oc []).getD ic []).getD kh []).getD kw 0

/-- The guarded sample of the inner loop: `input_image[in_c][h_idx][w_idx]`
when both indices are in `[0, input_height) × [0, input_width)`, else the
implicit zero pad. -/
def pixelValue (input_image : Tensor3) (input_height input_width : ℕ)
    (in_c : ℕ) (h_idx w_idx : ℤ) : ℚ :=
  if 0 ≤ h_idx ∧ h_idx < (input_height : ℤ) ∧ 0 ≤ w_idx ∧ w_idx < (input_width : ℤ) then
    cellAt input_image in_c h_idx.toNat w_idx.toNat
  else 0

/-- The accumulation of `current_sum` for one output cell `(out_c, out_h, out_w)`:
sum over `in_c`, `k_h`, `k_w` of the guarded sample times the kernel weight,
with `h_idx = out_h*stride + k_h - padding_h` and
`w_idx = out_w*stride + k_w - padding_w`. -/
def ConvolutionLayer.cellSum (l : ConvolutionLayer) (input_image : Tensor3)
    (input_height input_width : ℕ) (padding_h padding_w : ℤ)
    (out_c out_h out_w : ℕ) : ℚ :=
  ∑ in_c ∈ Finset.range l.input_channels,
    ∑ k_h ∈ Finset.range l.kernel_size,
      ∑ k_w ∈ Finset.range l.kernel_size,
        pixelValue input_image input_height input_width in_c
            ((out_h * l.stride + k_h : ℕ) - padding_h)
            ((out_w * l.stride + k_w : ℕ) - padding_w)
          * weightAt l.kernel_weights out_c in_c k_h k_w

/-- Method `ConvolutionLayer.forward`: emptiness and channel-count checks, geometry
derivation, the non-positive-dimension check, then the output tensor whose
cell `(out_c, out_h, out_w)` holds `cellSum`. -/
def ConvolutionLayer.forward (l : ConvolutionLayer) (input_image : Tensor3) :
    Except String Tensor3 :=
  if input_image.isEmpty ∨ (input_image.getD 0 []).isEmpty ∨
      ((input_image.getD 0 []).getD 0 []).isEmpty then
    .error "Input image cannot be empty."
  else if input_image.length ≠ l.input_channels then
    .error "Input image channels mismatch."
  else
    -- input_height = len(input_image[0]); input_width = len(input_image[0][0])
    match l.outputGeometry (input_image.getD 0 []).length
        ((input_image.getD 0 []).getD 0 []).length with
    | .error e => .error e
    | .ok (output_height, output_width, padding_h, padding_w) =>
      if output_height ≤ 0 ∨ output_width ≤ 0 then
        .error "Output dimensions are non-positive. Check kernel size, stride, and input dimensions."
      else
        .ok ((List.range l.output_channels).map fun out_c =>
          (List.range output_height.toNat).map fun out_h =>
            (List.range output_width.toNat).map fun out_w =>
              l.cellSum input_image (input_image.getD 0 []).length
                ((input_image.getD 0 []).getD 0 []).length padding_h padding_w
                out_c out_h out_w)

/-- The input tensor is rectangular with the given height and width. -/
def Rectangular (input_image : Tensor3) (h w : ℕ) : Prop :=
  ∀ ch ∈ input_image, ch.length = h ∧ ∀ row ∈ ch, row.length = w

instance (input_image : Tensor3) (h w : ℕ) : Decidable (Rectangular input_image h w) := by
  unfold Rectangular; infer_instance

/-- The §3 shape invariant on the kernel-weight tensor. -/
def WeightsShaped (input_channels kernel_size : ℕ) (w : Tensor4) : Prop :=
  ∀ ocw ∈ w, ocw.length = input_channels ∧
    ∀ m ∈ ocw, m.length = kernel_size ∧ ∀ r ∈ m, r.length = kernel_size

instance (input_channels kernel_size : ℕ) (w : Tensor4) :
    Decidable (WeightsShaped input_channels kernel_size w) := by
  unfold WeightsShaped; infer_instance

/-- Concrete 1×1×1 engine used by witnesses: kernel 1, stride 1, VALID. -/
def egLayer1 : ConvolutionLayer := ⟨1, 1, 0, 1, 1, [[[[1]]]]⟩

lemma getD_map_range {α : Type _} (f : ℕ → α) {n i : ℕ} (h : i < n) (d : α) :
    ((List.range n).map f).getD i d = f i := by
  have hl : i < ((List.range n).map f).length := by simpa using h
  rw [List.getD_eq_getElem _ _ hl, List.getElem_map, List.getElem_range]

/-- When both input checks pass, the geometry computation succeeds, and both
output dimensions are positive, `forward` returns the tensor of `cellSum`s. -/
lemma forward_eq_ok (l : ConvolutionLayer) (input : Tensor3)
    (hne : ¬ (input.isEmpty ∨ (input.getD 0 []).isEmpty ∨
      ((input.getD 0 []).getD 0 []).isEmpty))
    (hlen : input.length = l.input_channels)
    (OH OW ph pw : ℤ)
    (hgeom : l.outputGeometry (input.getD 0 []).length
      ((input.getD 0 []).getD 0 []).length = .ok (OH, OW, ph, pw))
    (hOH : 0 < OH) (hOW : 0 < OW) :
    l.forward input = .ok ((List.range l.output_channels).map fun out_c =>
      (List.range OH.toNat).map fun out_h =>
        (List.range OW.toNat).map fun out_w =>
          l.cellSum input (input.getD 0 []).length
            ((input.getD 0 []).getD 0 []).length ph pw out_c out_h out_w) := by
  have hnp : ¬ (OH ≤ 0 ∨ OW ≤ 0) := by omega
  unfold ConvolutionLayer.forward
  rw [if_neg hne, if_neg (fun h => h hlen)]
  split
  · rename_i e heq
    rw [hgeom] at heq
    cases heq
  · rename_i OH2 OW2 ph2 pw2 heq
    rw [hgeom] at heq
    simp only [Except.ok.injEq, Prod.mk.injEq] at heq
    obtain ⟨rfl, rfl, rfl, rfl⟩ := heq
    rw [if_neg hnp]

/-- Reading one cell of a successful `forward` output gives the corresponding
`cellSum`. -/
lemma forward_cellAt (l : ConvolutionLayer) (input out : Tensor3)
    (hne : ¬ (input.isEmpty ∨ (input.getD 0 []).isEmpty ∨
      ((input.getD 0 []).getD 0 []).isEmpty))
    (hlen : input.length = l.input_channels)
    (OH OW ph pw : ℤ)
    (hgeom : l.outputGeometry (input.getD 0 []).length
      ((input.getD 0 []).getD 0 []).length = .ok (OH, OW, ph, pw))
    (hOH : 0 < OH) (hOW : 0 < OW)
    (hout : l.forward input = .ok out)
    (oc oh ow : ℕ)
    (hoc : oc < l.output_channels) (hoh : oh < OH.toNat) (how : ow < OW.toNat) :
    cellAt out oc oh ow =
      l.cellSum input (input.getD 0 []).length
        ((input.getD 0 []).getD 0 []).length ph pw oc oh ow := by
  have h := forward_eq_ok l input hne hlen OH OW ph pw hgeom hOH hOW
  rw [hout] at h
  injection h with h
  subst h
  unfold cellAt
  rw [getD_map_range _ hoc, getD_map_range _ hoh, getD_map_range _ how]

/-- C1: for every constructed engine and accepted input, the output cell at
`[oc][oh][ow]` is the triple sum over `in_c`, `k_h`, `k_w` of
`input[in_c][oh*stride + k_h - pad_h][ow*stride + k_w - pad_w] *
kernel_weights[oc][in_c][k_h][k_w]`, where the input sample is replaced by
`0` (never skipping the kernel-weight term) whenever the row index falls
outside `[0, input_height)` or the column index outside `[0, input_width)`. -/
theorem C1_forward_cell_formula (l : ConvolutionLayer) (input out : Tensor3)
    (hne : ¬ (input.isEmpty ∨ (input.getD 0 []).isEmpty ∨
      ((input.getD 0 []).getD 0 []).isEmpty))
    (hlen : input.length = l.input_channels)
    (hrect : Rectangular input (input.getD 0 []).length
      ((input.getD 0 []).getD 0 []).length)
    (OH OW ph pw : ℤ)
    (hgeom : l.outputGeometry (input.getD 0 []).length
      ((input.getD 0 []).getD 0 []).length = .ok (OH, OW, ph, pw))
    (hOH : 0 < OH) (hOW : 0 < OW)
    (hout : l.forward input = .ok out)
    (oc oh ow : ℕ)
    (hoc : oc < l.output_channels) (hoh : oh < OH.toNat) (how : ow < OW.toNat) :
    cellAt out oc oh ow =
      ∑ in_c ∈ Finset.range l.input_channels,
        ∑ k_h ∈ Finset.range l.kernel_size,
          ∑ k_w ∈ Finset.range l.kernel_size,
            (if 0 ≤ ((oh * l.stride + k_h : ℕ) - ph : ℤ) ∧
                ((oh * l.stride + k_h : ℕ) - ph : ℤ) < ((input.getD 0 []).length : ℤ) ∧
                0 ≤ ((ow * l.stride + k_w : ℕ) - pw : ℤ) ∧
                ((ow * l.stride + k_w : ℕ) - pw : ℤ) <
                  (((input.getD 0 []).getD 0 []).length : ℤ) then
              cellAt input in_c ((oh * l.stride + k_h : ℕ) - ph).toNat
                ((ow * l.stride + k_w : ℕ) - pw).toNat
            else 0) * weightAt l.kernel_weights oc in_c k_h k_w := by
  rw [forward_cellAt l input out hne hlen OH OW ph pw hgeom hOH hOW hout oc oh ow hoc hoh how]
  simp only [ConvolutionLayer.cellSum, pixelValue]

/-- Witness for C1 at the 1×1×1 engine with weight 1 on input `[[[1]]]`. -/
theorem C1_forward_cell_formula_witness :
    egLayer1.forward [[[1]]] = .ok [[[1]]] ∧
    cellAt [[[(1 : ℚ)]]] 0 0 0 =
      ∑ in_c ∈ Finset.range egLayer1.input_channels,
        ∑ k_h ∈ Finset.range egLayer1.kernel_size,
          ∑ k_w ∈ Finset.range egLayer1.kernel_size,
            (if 0 ≤ ((0 * egLayer1.stride + k_h : ℕ) - 0 : ℤ) ∧
                ((0 * egLayer1.stride + k_h : ℕ) - 0 : ℤ) <
                  ((([[[(1 : ℚ)]]] : Tensor3).getD 0 []).length : ℤ) ∧
                0 ≤ ((0 * egLayer1.stride + k_w : ℕ) - 0 : ℤ) ∧
                ((0 * egLayer1.stride + k_w : ℕ) - 0 : ℤ) <
                  (((([[[(1 : ℚ)]]] : Tensor3).getD 0 []).getD 0 []).length : ℤ) then
              cellAt [[[(1 : ℚ)]]] in_c ((0 * egLayer1.stride + k_h : ℕ) - 0 : ℤ).toNat
                ((0 * egLayer1.stride + k_w : ℕ) - 0 : ℤ).toNat
            else 0) * weightAt egLayer1.kernel_weights 0 in_c k_h k_w := by
  have hout : egLayer1.forward [[[1]]] = .ok [[[1]]] := by
    rw [forward_eq_ok egLayer1 [[[1]]] (by decide) rfl 1 1 0 0 (by rfl)
      (by decide) (by decide)]
    simp [egLayer1, List.range_succ, ConvolutionLayer.cellSum, Finset.sum_range_succ,
      pixelValue, cellAt, weightAt]
  refine ⟨hout, ?_⟩
  exact C1_forward_cell_formula egLayer1 [[[1]]] [[[1]]] (by decide) rfl (by decide)
    1 1 0 0 (by rfl) (by decide) (by decide) hout 0 0 0 (by decide) (by decide) (by decide)

/-- VALID-mode geometry, written over `ℕ` when the input is at least as large
as the kernel: `output_dim = (input_dim - kernel_size) / stride + 1` and zero
padding on both axes. -/
lemma outputGeometry_valid (l : ConvolutionLayer) (hpm : l.padding_mode = 0)
    (H W : ℕ) (hHk : l.kernel_size ≤ H) (hWk : l.kernel_size ≤ W) :
    l.outputGeometry H W =
      .ok ((((H - l.kernel_size) / l.stride + 1 : ℕ) : ℤ),
           (((W - l.kernel_size) / l.stride + 1 : ℕ) : ℤ), 0, 0) := by
  unfold ConvolutionLayer.outputGeometry
  rw [if_pos hpm]
  have h1 : ((H : ℤ) - (l.kernel_size : ℤ)) = ((H - l.kernel_size : ℕ) : ℤ) := by omega
  have h2 : ((W : ℤ) - (l.kernel_size : ℤ)) = ((W - l.kernel_size : ℕ) : ℤ) := by omega
  rw [h1, h2]
  have h3 : ((H - l.kernel_size : ℕ) : ℤ) / (l.stride : ℤ) =
      (((H - l.kernel_size) / l.stride : ℕ) : ℤ) := by exact_mod_cast rfl
  have h4 : ((W - l.kernel_size : ℕ) : ℤ) / (l.stride : ℤ) =
      (((W - l.kernel_size) / l.stride : ℕ) : ℤ) := by exact_mod_cast rfl
  rw [h3, h4]
  norm_num

/-- C2: for a VALID-mode engine and an accepted input with both dimensions at
least `kernel_size`, `forward` succeeds and the output has shape exactly
`[output_channels][(H - k)/s + 1][(W - k)/s + 1]`, with padding amount 0 on
both axes. -/
theorem C2_valid_shape (l : ConvolutionLayer) (input : Tensor3) (H W : ℕ)
    (hpm : l.padding_mode = 0)
    (hH : (input.getD 0 []).length = H)
    (hW : ((input.getD 0 []).getD 0 []).length = W)
    (hlen : input.length = l.input_channels)
    (hk : 0 < l.kernel_size)
    (hHk : l.kernel_size ≤ H) (hWk : l.kernel_size ≤ W) :
    l.outputGeometry H W =
      .ok ((((H - l.kernel_size) / l.stride + 1 : ℕ) : ℤ),
           (((W - l.kernel_size) / l.stride + 1 : ℕ) : ℤ), 0, 0) ∧
    ∃ out, l.forward input = .ok out ∧
      out.length = l.output_channels ∧
      ∀ ch ∈ out, ch.length = (H - l.kernel_size) / l.stride + 1 ∧
        ∀ row ∈ ch, row.length = (W - l.kernel_size) / l.stride + 1 := by
  have hgeom := outputGeometry_valid l hpm H W hHk hWk
  refine ⟨hgeom, ?_⟩
  have hne : ¬ (input.isEmpty ∨ (input.getD 0 []).isEmpty ∨
      ((input.getD 0 []).getD 0 []).isEmpty) := by
    simp only [List.isEmpty_iff, not_or]
    refine ⟨?_, ?_, ?_⟩
    · intro h0
      rw [h0] at hH
      simp at hH
      omega
    · intro h0
      rw [h0] at hH
      simp at hH
      omega
    · intro h0
      rw [h0] at hW
      simp at hW
      omega
  rw [← hH, ← hW] at hgeom
  refine ⟨_, forward_eq_ok l input hne hlen _ _ _ _ hgeom
    (by exact_mod_cast Nat.succ_pos _) (by exact_mod_cast Nat.succ_pos _), ?_, ?_⟩
  · simp
  · intro ch hch
    simp only [List.mem_map] at hch
    obtain ⟨oc, _, rfl⟩ := hch
    constructor
    · simp only [List.length_map, List.length_range, Int.toNat_natCast, hH]
    · intro row hrow
      simp only [List.mem_map] at hrow
      obtain ⟨oh, _, rfl⟩ := hrow
      simp only [List.length_map, List.length_range, Int.toNat_natCast, hW]

/-- Witness for C2 at a 2×2 input with a 1×1 kernel. -/
theorem C2_valid_shape_witness :
    egLayer1.outputGeometry 2 2 = .ok (2, 2, 0, 0) ∧
    ∃ out, egLayer1.forward [[[1, 2], [3, 4]]] = .ok out ∧
      out.length = egLayer1.output_channels ∧
      ∀ ch ∈ out, ch.length = (2 - egLayer1.kernel_size) / egLayer1.stride + 1 ∧
        ∀ row ∈ ch, row.length = (2 - egLayer1.kernel_size) / egLayer1.stride + 1 :=
  C2_valid_shape egLayer1 [[[1, 2], [3, 4]]] 2 2 rfl rfl rfl rfl
    (by decide) (by decide) (by decide)

/-- C10: for a VALID-mode engine on an input at least as large as the kernel,
the padding amounts are 0 and every sampled index pair lies inside
`[0, H) × [0, W)`, so the guarded sample never takes the zero branch:
`pixelValue` returns the actual input cell. -/
theorem C10_valid_no_zero_branch (l : ConvolutionLayer) (H W : ℕ)
    (hpm : l.padding_mode = 0) (hs : 0 < l.stride)
    (hHk : l.kernel_size ≤ H) (hWk : l.kernel_size ≤ W) :
    l.outputGeometry H W =
      .ok ((((H - l.kernel_size) / l.stride + 1 : ℕ) : ℤ),
           (((W - l.kernel_size) / l.stride + 1 : ℕ) : ℤ), 0, 0) ∧
    ∀ (input : Tensor3) (in_c oh ow kh kw : ℕ),
      oh < (H - l.kernel_size) / l.stride + 1 →
      ow < (W - l.kernel_size) / l.stride + 1 →
      kh < l.kernel_size → kw < l.kernel_size →
      pixelValue input H W in_c ((oh * l.stride + kh : ℕ) - (0 : ℤ))
          ((ow * l.stride + kw : ℕ) - (0 : ℤ)) =
        cellAt input in_c (oh * l.stride + kh) (ow * l.stride + kw) := by
  refine ⟨outputGeometry_valid l hpm H W hHk hWk, ?_⟩
  intro input in_c oh ow kh kw hoh how hkh hkw
  have hh : oh * l.stride + kh < H := by
    have h1 : oh ≤ (H - l.kernel_size) / l.stride := by omega
    have h2 : oh * l.stride ≤ (H - l.kernel_size) / l.stride * l.stride :=
      Nat.mul_le_mul_right _ h1
    have h3 : (H - l.kernel_size) / l.stride * l.stride ≤ H - l.kernel_size :=
      Nat.div_mul_le_self _ _
    omega
  have hw : ow * l.stride + kw < W := by
    have h1 : ow ≤ (W - l.kernel_size) / l.stride := by omega
    have h2 : ow * l.stride ≤ (W - l.kernel_size) / l.stride * l.stride :=
      Nat.mul_le_mul_right _ h1
    have h3 : (W - l.kernel_size) / l.stride * l.stride ≤ W - l.kernel_size :=
      Nat.div_mul_le_self _ _
    omega
  unfold pixelValue
  rw [if_pos (by push_cast; omega)]
  congr 1 <;> omega

/-- Witness for C10 at the 1×1×1 engine on a 2×2 input. -/
theorem C10_valid_no_zero_branch_witness :
    egLayer1.outputGeometry 2 2 = .ok (2, 2, 0, 0) ∧
    ∀ (input : Tensor3) (in_c oh ow kh kw : ℕ),
      oh < (2 - egLayer1.kernel_size) / egLayer1.stride + 1 →
      ow < (2 - egLayer1.kernel_size) / egLayer1.stride + 1 →
      kh < egLayer1.kernel_size → kw < egLayer1.kernel_size →
      pixelValue input 2 2 in_c ((oh * egLayer1.stride + kh : ℕ) - (0 : ℤ))
          ((ow * egLayer1.stride + kw : ℕ) - (0 : ℤ)) =
        cellAt input in_c (oh * egLayer1.stride + kh) (ow * egLayer1.stride + kw) :=
  C10_valid_no_zero_branch egLayer1 2 2 rfl (by decide) (by decide) (by decide)

/-- SAME-mode geometry exactly as computed by lines 63–67 of `forward`. -/
lemma outputGeometry_same (l : ConvolutionLayer) (hpm : l.padding_mode = 1) (H W : ℕ) :
    l.outputGeometry H W =
      .ok ((((H + l.stride - 1) / l.stride : ℕ) : ℤ),
           (((W + l.stride - 1) / l.stride : ℕ) : ℤ),
           l.calculate_padding_amount H (((H + l.stride - 1) / l.stride : ℕ) : ℤ),
           l.calculate_padding_amount W (((W + l.stride - 1) / l.stride : ℕ) : ℤ)) := by
  unfold ConvolutionLayer.outputGeometry
  rw [if_neg (by omega), if_pos hpm]

/-- The geometry computation never fails when the padding mode is 0 or 1. -/
lemma outputGeometry_error_inv (l : ConvolutionLayer) (H W : ℕ) (e : String)
    (herr : l.outputGeometry H W = .error e) :
    1 < l.padding_mode ∧ e = "Invalid padding mode internal state." := by
  unfold ConvolutionLayer.outputGeometry at herr
  split_ifs at herr with h0 h1
  all_goals first
    | (injection herr with h; exact ⟨by omega, h.symm⟩)
    | cases herr

/-- Natural-number `(H + s - 1) / s` is the rational ceiling `⌈H / s⌉`. -/
lemma ceil_nat_div (H s : ℕ) (hs : 0 < s) :
    (⌈(H : ℚ) / (s : ℚ)⌉ : ℤ) = (((H + s - 1) / s : ℕ) : ℤ) := by
  have hs' : (0 : ℚ) < (s : ℚ) := by exact_mod_cast hs
  set m := (H + s - 1) / s with hm
  have h3 : m * s ≤ H + s - 1 := Nat.div_mul_le_self _ _
  have h4 : H + s - 1 < (m + 1) * s := by
    rw [← Nat.div_lt_iff_lt_mul hs]
    omega
  rw [Nat.succ_mul] at h4
  have h1 : H ≤ m * s := by omega
  have h2 : m * s < H + s := by omega
  rw [Int.ceil_eq_iff]
  have h1q : (H : ℚ) ≤ (m : ℚ) * s := by exact_mod_cast h1
  have h2q : (m : ℚ) * s < (H : ℚ) + s := by exact_mod_cast h2
  constructor
  · push_cast
    rw [lt_div_iff₀ hs']
    nlinarith
  · push_cast
    rw [div_le_iff₀ hs']
    exact h1q

/-- Under `max 0 _`, Python's truncating `int(x / 2)` agrees with the flooring
division `⌊x / 2⌋`. -/
lemma max_zero_tdiv_eq_floor (X : ℤ) :
    max 0 (Int.tdiv X 2) = max 0 ⌊(X : ℚ) / 2⌋ := by
  have hfloor : ⌊(X : ℚ) / 2⌋ = X / 2 := by
    have := Rat.floor_intCast_div_natCast X 2
    push_cast at this ⊢
    exact this
  rcases le_or_lt 0 X with hX | hX
  · rw [Int.tdiv_eq_ediv hX (by norm_num), hfloor]
  · have ht : Int.tdiv X 2 ≤ 0 := by
      have h2 : (0 : ℤ) ≤ -X := by omega
      have := Int.tdiv_nonneg h2 (by norm_num : (0 : ℤ) ≤ 2)
      rw [Int.neg_tdiv] at this
      omega
    have he : ⌊(X : ℚ) / 2⌋ ≤ 0 := by
      rw [hfloor]
      omega
    omega

/-- Applying `_calculate_padding_amount` to a natural target dimension equals
the spec's `max(0, ⌊((target - 1)·stride + kernel_size - input_dim) / 2⌋)`. -/
lemma calc_pad_spec (l : ConvolutionLayer) (dim target : ℕ) :
    l.calculate_padding_amount (dim : ℤ) (target : ℤ) =
      max 0 ⌊(((target : ℚ) - 1) * (l.stride : ℚ) + (l.kernel_size : ℚ) - (dim : ℚ)) / 2⌋ := by
  unfold ConvolutionLayer.calculate_padding_amount
  rw [max_zero_tdiv_eq_floor]
  congr 2
  push_cast
  ring

/-- C3: in SAME mode, each axis independently gets
`output_dim = ⌈input_dim / stride⌉` (so `output_dim = input_dim` for stride 1)
and top/left padding `max(0, ⌊((output_dim - 1)·stride + kernel_size - input_dim) / 2⌋)`. -/
theorem C3_same_geometry (l : ConvolutionLayer) (hpm : l.padding_mode = 1)
    (hs : 0 < l.stride) (H W : ℕ) :
    ∃ OH OW : ℕ,
      l.outputGeometry H W =
        .ok ((OH : ℤ), (OW : ℤ),
             max 0 ⌊(((OH : ℚ) - 1) * (l.stride : ℚ) + (l.kernel_size : ℚ) - (H : ℚ)) / 2⌋,
             max 0 ⌊(((OW : ℚ) - 1) * (l.stride : ℚ) + (l.kernel_size : ℚ) - (W : ℚ)) / 2⌋) ∧
      (OH : ℤ) = ⌈(H : ℚ) / (l.stride : ℚ)⌉ ∧
      (OW : ℤ) = ⌈(W : ℚ) / (l.stride : ℚ)⌉ ∧
      (l.stride = 1 → OH = H ∧ OW = W) := by
  refine ⟨(H + l.stride - 1) / l.stride, (W + l.stride - 1) / l.stride,
    ?_, (ceil_nat_div H l.stride hs).symm, (ceil_nat_div W l.stride hs).symm, ?_⟩
  · rw [outputGeometry_same l hpm H W, calc_pad_spec, calc_pad_spec]
  · intro h1
    constructor <;> · rw [h1]; omega

/-- Witness for C3: kernel 3, stride 2 on a 32×32 input gives output 16×16
with zero padding (`max(0, ⌊((16-1)·2+3-32)/2⌋) = 0`). -/
theorem C3_same_geometry_witness :
    ∃ OH OW : ℕ,
      (⟨3, 2, 1, 3, 1, []⟩ : ConvolutionLayer).outputGeometry 32 32 =
        .ok ((OH : ℤ), (OW : ℤ),
             max 0 ⌊(((OH : ℚ) - 1) * ((2 : ℕ) : ℚ) + ((3 : ℕ) : ℚ) - ((32 : ℕ) : ℚ)) / 2⌋,
             max 0 ⌊(((OW : ℚ) - 1) * ((2 : ℕ) : ℚ) + ((3 : ℕ) : ℚ) - ((32 : ℕ) : ℚ)) / 2⌋) ∧
      (OH : ℤ) = ⌈((32 : ℕ) : ℚ) / ((2 : ℕ) : ℚ)⌉ ∧
      (OW : ℤ) = ⌈((32 : ℕ) : ℚ) / ((2 : ℕ) : ℚ)⌉ ∧
      ((2 : ℕ) = 1 → OH = 32 ∧ OW = 32) :=
  C3_same_geometry ⟨3, 2, 1, 3, 1, []⟩ rfl (by decide) 32 32

lemma checkRowWidths_ok_iff (k : ℕ) (rows : List (List ℚ)) :
    checkRowWidths k rows = .ok () ↔ ∀ r ∈ rows, r.length = k := by
  induction rows with
  | nil => simp [checkRowWidths]
  | cons r rest ih =>
    unfold checkRowWidths
    by_cases h : r.length = k
    · rw [if_neg (by simpa using h)]
      simp [h, ih]
    · rw [if_pos (by simpa using h)]
      simp [h]

lemma checkChannelMats_ok_iff (k : ℕ) (mats : List (List (List ℚ))) :
    checkChannelMats k mats = .ok () ↔
      ∀ m ∈ mats, m.length = k ∧ ∀ r ∈ m, r.length = k := by
  induction mats with
  | nil => simp [checkChannelMats]
  | cons m rest ih =>
    unfold checkChannelMats
    by_cases h : m.length = k
    · rw [if_neg (by simpa using h)]
      cases hrw : checkRowWidths k m with
      | error e =>
        refine iff_of_false (fun habs => by cases habs) (fun hall => ?_)
        have := (checkRowWidths_ok_iff k m).mpr (hall m (List.mem_cons_self _ _)).2
        rw [hrw] at this
        cases this
      | ok u =>
        cases u
        have hrows : ∀ r ∈ m, r.length = k := (checkRowWidths_ok_iff k m).mp hrw
        rw [ih]
        constructor
        · intro hrest m' hm'
          rcases List.mem_cons.mp hm' with rfl | hm''
          · exact ⟨h, hrows⟩
          · exact hrest _ hm''
        · intro hall m' hm'
          exact hall _ (List.mem_cons_of_mem _ hm')
    · rw [if_pos (by simpa using h)]
      exact iff_of_false (fun habs => by cases habs)
        (fun hall => h (hall m (List.mem_cons_self _ _)).1)

lemma checkOuterWeights_ok_iff (ic k : ℕ) (w : Tensor4) :
    checkOuterWeights ic k w = .ok () ↔ WeightsShaped ic k w := by
  induction w with
  | nil => simp [checkOuterWeights, WeightsShaped]
  | cons ocw rest ih =>
    unfold checkOuterWeights
    by_cases h : ocw.length = ic
    · rw [if_neg (by simpa using h)]
      cases hcm : checkChannelMats k ocw with
      | error e =>
        refine iff_of_false (fun habs => by cases habs) (fun hall => ?_)
        have := (checkChannelMats_ok_iff k ocw).mpr (hall ocw (List.mem_cons_self _ _)).2
        rw [hcm] at this
        cases this
      | ok u =>
        cases u
        have hmats := (checkChannelMats_ok_iff k ocw).mp hcm
        rw [ih]
        constructor
        · intro hrest ocw' hm'
          rcases List.mem_cons.mp hm' with rfl | hm''
          · exact ⟨h, hmats⟩
          · exact hrest _ hm''
        · intro hall ocw' hm'
          exact hall _ (List.mem_cons_of_mem _ hm')
    · rw [if_pos (by simpa using h)]
      exact iff_of_false (fun habs => by cases habs)
        (fun hall => h (hall ocw (List.mem_cons_self _ _)).1)

/-- C4: construction succeeds exactly when every §3 structural invariant
holds, the engine state on success is exactly the validated configuration
(no partial engine otherwise), the three named rejections produce the
matching errors, and validation stops at the first violated invariant in
source order (all-invalid input reports the kernel-size error; kernel ok but
stride and mode invalid reports the stride error). -/
theorem C4_init_validation :
    (∀ (ks s pm ic oc : ℕ) (w : Tensor4),
      (∃ l, ConvolutionLayer.init ks s pm ic oc w = .ok l) ↔
        0 < ks ∧ 0 < s ∧ (pm = 0 ∨ pm = 1) ∧ 0 < ic ∧ 0 < oc ∧
          w.length = oc ∧ WeightsShaped ic ks w) ∧
    (∀ (ks s pm ic oc : ℕ) (w : Tensor4) (l : ConvolutionLayer),
      ConvolutionLayer.init ks s pm ic oc w = .ok l →
        l = ⟨ks, s, pm, ic, oc, w⟩) ∧
    ConvolutionLayer.init 0 1 0 1 1 [[[[0]]]] =
      .error "Kernel size must be a positive integer." ∧
    ConvolutionLayer.init 1 1 2 1 1 [[[[0]]]] =
      .error "Padding mode must be 0 (VALID) or 1 (SAME)." ∧
    ConvolutionLayer.init 1 1 0 1 2 [[[[0]]]] =
      .error "Kernel weights outer dimension mismatch." ∧
    ConvolutionLayer.init 0 0 2 0 0 [] =
      .error "Kernel size must be a positive integer." ∧
    ConvolutionLayer.init 1 0 2 1 1 [[[[0]]]] =
      .error "Stride must be a positive integer." := by
  refine ⟨?_, ?_, rfl, rfl, rfl, rfl, rfl⟩
  · intro ks s pm ic oc w
    unfold ConvolutionLayer.init
    by_cases h1 : ks = 0
    case pos =>
      rw [if_pos h1]
      exact iff_of_false (by rintro ⟨l, hl⟩; cases hl) (by rintro ⟨c, -⟩; omega)
    rw [if_neg h1]
    by_cases h2 : s = 0
    case pos =>
      rw [if_pos h2]
      exact iff_of_false (by rintro ⟨l, hl⟩; cases hl) (by rintro ⟨-, c, -⟩; omega)
    rw [if_neg h2]
    by_cases h3 : pm = 0 ∨ pm = 1
    case neg =>
      rw [if_pos h3]
      exact iff_of_false (by rintro ⟨l, hl⟩; cases hl) (by rintro ⟨-, -, c, -⟩; exact h3 c)
    rw [if_neg (not_not_intro h3)]
    by_cases h4 : ic = 0
    case pos =>
      rw [if_pos h4]
      exact iff_of_false (by rintro ⟨l, hl⟩; cases hl) (by rintro ⟨-, -, -, c, -⟩; omega)
    rw [if_neg h4]
    by_cases h5 : oc = 0
    case pos =>
      rw [if_pos h5]
      exact iff_of_false (by rintro ⟨l, hl⟩; cases hl) (by rintro ⟨-, -, -, -, c, -⟩; omega)
    rw [if_neg h5]
    by_cases h6 : w.isEmpty
    case pos =>
      rw [if_pos h6]
      refine iff_of_false (by rintro ⟨l, hl⟩; cases hl) ?_
      rintro ⟨-, -, -, -, c5, c6, -⟩
      rw [List.isEmpty_iff] at h6
      rw [h6] at c6
      simp at c6
      omega
    rw [if_neg h6]
    by_cases h7 : w.length ≠ oc
    case pos =>
      rw [if_pos h7]
      exact iff_of_false (by rintro ⟨l, hl⟩; cases hl)
        (by rintro ⟨-, -, -, -, -, c, -⟩; exact h7 c)
    rw [if_neg h7]
    cases hco : checkOuterWeights ic ks w with
    | error e =>
      refine iff_of_false (by rintro ⟨l, hl⟩; cases hl) ?_
      rintro ⟨-, -, -, -, -, -, c7⟩
      have := (checkOuterWeights_ok_iff ic ks w).mpr c7
      rw [hco] at this
      cases this
    | ok u =>
      cases u
      exact iff_of_true ⟨⟨ks, s, pm, ic, oc, w⟩, rfl⟩
        ⟨by omega, by omega, h3, by omega, by omega, not_ne_iff.mp h7,
          (checkOuterWeights_ok_iff ic ks w).mp hco⟩
  · intro ks s pm ic oc w l hl
    unfold ConvolutionLayer.init at hl
    split_ifs at hl
    all_goals
      first
        | cases hl
        | (split at hl <;>
            first
              | (injection hl with hl2; exact hl2.symm)
              | cases hl)

/-- Witness for C4's quantified parts: a fully valid configuration is
accepted and the engine state equals the configuration. -/
theorem C4_init_validation_witness :
    (∃ l, ConvolutionLayer.init 1 1 0 1 1 [[[[1]]]] = .ok l) ∧
    ConvolutionLayer.init 1 1 0 1 1 [[[[1]]]] = .ok egLayer1 :=
  ⟨(C4_init_validation.1 1 1 0 1 1 [[[[1]]]]).mpr
      ⟨by decide, by decide, Or.inl rfl, by decide, by decide, rfl, by decide⟩,
    C4_init_validation.2.1 1 1 0 1 1 [[[[1]]]] egLayer1 rfl ▸ rfl⟩

/-- VALID-mode geometry with no size hypotheses, exactly as computed. -/
lemma outputGeometry_valid_raw (l : ConvolutionLayer) (hpm : l.padding_mode = 0)
    (H W : ℕ) :
    l.outputGeometry H W =
      .ok (((H : ℤ) - (l.kernel_size : ℤ)) / (l.stride : ℤ) + 1,
           ((W : ℤ) - (l.kernel_size : ℤ)) / (l.stride : ℤ) + 1, 0, 0) := by
  unfold ConvolutionLayer.outputGeometry
  rw [if_pos hpm]

/-- Inversion of a successful `forward`: all checks passed, the geometry
succeeded with positive dimensions, and the output is the `cellSum` tensor. -/
lemma forward_ok_inv (l : ConvolutionLayer) (input out : Tensor3)
    (hok : l.forward input = .ok out) :
    ¬ (input.isEmpty ∨ (input.getD 0 []).isEmpty ∨
        ((input.getD 0 []).getD 0 []).isEmpty) ∧
    input.length = l.input_channels ∧
    ∃ OH OW ph pw : ℤ,
      l.outputGeometry (input.getD 0 []).length
        ((input.getD 0 []).getD 0 []).length = .ok (OH, OW, ph, pw) ∧
      0 < OH ∧ 0 < OW ∧
      out = ((List.range l.output_channels).map fun out_c =>
        (List.range OH.toNat).map fun out_h =>
          (List.range OW.toNat).map fun out_w =>
            l.cellSum input (input.getD 0 []).length
              ((input.getD 0 []).getD 0 []).length ph pw out_c out_h out_w) := by
  unfold ConvolutionLayer.forward at hok
  by_cases h1 : input.isEmpty = true ∨ (input.getD 0 []).isEmpty = true ∨
      ((input.getD 0 []).getD 0 []).isEmpty = true
  · rw [if_pos h1] at hok
    cases hok
  rw [if_neg h1] at hok
  by_cases h2 : input.length ≠ l.input_channels
  · rw [if_pos h2] at hok
    cases hok
  rw [if_neg h2] at hok
  split at hok
  · cases hok
  · rename_i OH OW ph pw heq
    by_cases h3 : OH ≤ 0 ∨ OW ≤ 0
    · rw [if_pos h3] at hok
      cases hok
    · rw [if_neg h3] at hok
      injection hok with hok
      exact ⟨h1, not_ne_iff.mp h2, OH, OW, ph, pw, heq, by omega, by omega, hok.symm⟩

/-- Acceptance: `forward` returns a tensor exactly when the two input checks
pass and the derived output dimensions are positive. -/
lemma forward_ok_iff (l : ConvolutionLayer) (input : Tensor3) :
    (∃ out, l.forward input = .ok out) ↔
      ¬ (input.isEmpty ∨ (input.getD 0 []).isEmpty ∨
          ((input.getD 0 []).getD 0 []).isEmpty) ∧
      input.length = l.input_channels ∧
      ∃ OH OW ph pw : ℤ,
        l.outputGeometry (input.getD 0 []).length
          ((input.getD 0 []).getD 0 []).length = .ok (OH, OW, ph, pw) ∧
        0 < OH ∧ 0 < OW := by
  constructor
  · rintro ⟨out, hok⟩
    obtain ⟨a, b, OH, OW, ph, pw, hg, hOH, hOW, -⟩ := forward_ok_inv l input out hok
    exact ⟨a, b, OH, OW, ph, pw, hg, hOH, hOW⟩
  · rintro ⟨a, b, OH, OW, ph, pw, hg, hOH, hOW⟩
    exact ⟨_, forward_eq_ok l input a b OH OW ph pw hg hOH hOW⟩

/-- Every error `forward` can produce for a constructible padding mode is one
of the three shape errors. -/
lemma forward_error_msgs (l : ConvolutionLayer) (input : Tensor3)
    (hpm : l.padding_mode ≤ 1) :
    ∀ e, l.forward input = .error e →
      e = "Input image cannot be empty." ∨
      e = "Input image channels mismatch." ∨
      e = "Output dimensions are non-positive. Check kernel size, stride, and input dimensions." := by
  intro e herr
  unfold ConvolutionLayer.forward at herr
  by_cases h1 : input.isEmpty = true ∨ (input.getD 0 []).isEmpty = true ∨
      ((input.getD 0 []).getD 0 []).isEmpty = true
  · rw [if_pos h1] at herr
    injection herr with h
    exact Or.inl h.symm
  rw [if_neg h1] at herr
  by_cases h2 : input.length ≠ l.input_channels
  · rw [if_pos h2] at herr
    injection herr with h
    exact Or.inr (Or.inl h.symm)
  rw [if_neg h2] at herr
  split at herr
  · rename_i e' heq
    have := outputGeometry_error_inv l _ _ _ heq
    omega
  · rename_i OH OW ph pw heq
    by_cases h3 : OH ≤ 0 ∨ OW ≤ 0
    · rw [if_pos h3] at herr
      injection herr with h
      exact Or.inr (Or.inr h.symm)
    · rw [if_neg h3] at herr
      cases herr

/-- C5: for an engine with a constructible padding mode, `forward` fails
exactly when the input is empty, the channel count mismatches, or a derived
output dimension is non-positive; it returns a tensor in every other case;
and the only errors it produces are the three shape errors. -/
theorem C5_forward_shape_errors (l : ConvolutionLayer) (hpm : l.padding_mode ≤ 1)
    (input : Tensor3) :
    ((∃ e, l.forward input = .error e) ↔
      ((input.isEmpty ∨ (input.getD 0 []).isEmpty ∨
          ((input.getD 0 []).getD 0 []).isEmpty) ∨
       input.length ≠ l.input_channels ∨
       (∃ OH OW ph pw : ℤ,
         l.outputGeometry (input.getD 0 []).length
           ((input.getD 0 []).getD 0 []).length = .ok (OH, OW, ph, pw) ∧
         (OH ≤ 0 ∨ OW ≤ 0)))) ∧
    ((∃ out, l.forward input = .ok out) ↔
      ¬ (((input.isEmpty ∨ (input.getD 0 []).isEmpty ∨
          ((input.getD 0 []).getD 0 []).isEmpty) ∨
       input.length ≠ l.input_channels ∨
       (∃ OH OW ph pw : ℤ,
         l.outputGeometry (input.getD 0 []).length
           ((input.getD 0 []).getD 0 []).length = .ok (OH, OW, ph, pw) ∧
         (OH ≤ 0 ∨ OW ≤ 0))))) ∧
    (∀ e, l.forward input = .error e →
      e = "Input image cannot be empty." ∨
      e = "Input image channels mismatch." ∨
      e = "Output dimensions are non-positive. Check kernel size, stride, and input dimensions.") := by
  have hgex : ∃ q : ℤ × ℤ × ℤ × ℤ,
      l.outputGeometry (input.getD 0 []).length
        ((input.getD 0 []).getD 0 []).length = .ok q := by
    rcases (by omega : l.padding_mode = 0 ∨ l.padding_mode = 1) with h | h
    · exact ⟨_, outputGeometry_valid_raw l h _ _⟩
    · exact ⟨_, outputGeometry_same l h _ _⟩
  obtain ⟨⟨OH, OW, ph, pw⟩, hg⟩ := hgex
  have hcond : (∃ OH' OW' ph' pw' : ℤ,
      l.outputGeometry (input.getD 0 []).length
        ((input.getD 0 []).getD 0 []).length = .ok (OH', OW', ph', pw') ∧
      (OH' ≤ 0 ∨ OW' ≤ 0)) ↔ (OH ≤ 0 ∨ OW ≤ 0) := by
    constructor
    · rintro ⟨a, b, c, d, hg', hnp⟩
      rw [hg] at hg'
      simp only [Except.ok.injEq, Prod.mk.injEq] at hg'
      obtain ⟨rfl, rfl, rfl, rfl⟩ := hg'
      exact hnp
    · intro hnp
      exact ⟨OH, OW, ph, pw, hg, hnp⟩
  have hpos : (∃ OH' OW' ph' pw' : ℤ,
      l.outputGeometry (input.getD 0 []).length
        ((input.getD 0 []).getD 0 []).length = .ok (OH', OW', ph', pw') ∧
      0 < OH' ∧ 0 < OW') ↔ (0 < OH ∧ 0 < OW) := by
    constructor
    · rintro ⟨a, b, c, d, hg', hp1, hp2⟩
      rw [hg] at hg'
      simp only [Except.ok.injEq, Prod.mk.injEq] at hg'
      obtain ⟨rfl, rfl, rfl, rfl⟩ := hg'
      exact ⟨hp1, hp2⟩
    · rintro ⟨hp1, hp2⟩
      exact ⟨OH, OW, ph, pw, hg, hp1, hp2⟩
  have hdich : (∃ e, l.forward input = .error e) ↔
      ¬ ∃ out, l.forward input = .ok out := by
    cases l.forward input with
    | error e => simp
    | ok t => simp
  refine ⟨?_, ?_, forward_error_msgs l input hpm⟩
  · rw [hdich, forward_ok_iff, hpos, hcond]
    constructor
    · intro hnand
      by_cases hc1 : input.isEmpty = true ∨ (input.getD 0 []).isEmpty = true ∨
          ((input.getD 0 []).getD 0 []).isEmpty = true
      · exact Or.inl hc1
      by_cases hlen : input.length = l.input_channels
      · refine Or.inr (Or.inr ?_)
        by_cases hOH : 0 < OH
        · by_cases hOW : 0 < OW
          · exact absurd ⟨hc1, hlen, hOH, hOW⟩ hnand
          · omega
        · omega
      · exact Or.inr (Or.inl hlen)
    · rintro (hc1 | hlen | hnp) ⟨a1, a2, a3, a4⟩
      · exact a1 hc1
      · exact hlen a2
      · omega
  · rw [forward_ok_iff, hpos, hcond]
    constructor
    · rintro ⟨a1, a2, a3, a4⟩ (h | h | h)
      · exact a1 h
      · exact h a2
      · omega
    · intro hnd
      refine ⟨fun h => hnd (Or.inl h), not_ne_iff.mp fun h => hnd (Or.inr (Or.inl h)), ?_⟩
      have : ¬ (OH ≤ 0 ∨ OW ≤ 0) := fun h => hnd (Or.inr (Or.inr h))
      omega

/-- Witness for C5 at the 1×1×1 engine: the empty input is rejected and a
1×1×1 input is accepted. -/
theorem C5_forward_shape_errors_witness :
    ((∃ e, egLayer1.forward [] = .error e) ↔
      ((([] : Tensor3).isEmpty ∨ (([] : Tensor3).getD 0 []).isEmpty ∨
          ((([] : Tensor3).getD 0 []).getD 0 []).isEmpty) ∨
       ([] : Tensor3).length ≠ egLayer1.input_channels ∨
       (∃ OH OW ph pw : ℤ,
         egLayer1.outputGeometry (([] : Tensor3).getD 0 []).length
           ((([] : Tensor3).getD 0 []).getD 0 []).length = .ok (OH, OW, ph, pw) ∧
         (OH ≤ 0 ∨ OW ≤ 0)))) :=
  (C5_forward_shape_errors egLayer1 (by decide) []).1

lemma getD_mem_or_eq {α : Type _} (xs : List α) (i : ℕ) (d : α) :
    xs.getD i d ∈ xs ∨ xs.getD i d = d := by
  by_cases h : i < xs.length
  · left
    rw [List.getD_eq_getElem _ _ h]
    exact List.getElem_mem _
  · right
    exact List.getD_eq_default _ _ (le_of_not_lt h)

lemma weightAt_zero (w : Tensor4)
    (hzero : ∀ t ∈ w, ∀ m ∈ t, ∀ r ∈ m, ∀ q ∈ r, q = (0 : ℚ))
    (oc ic kh kw : ℕ) : weightAt w oc ic kh kw = 0 := by
  unfold weightAt
  rcases getD_mem_or_eq w oc [] with h1 | h1
  · rcases getD_mem_or_eq (w.getD oc []) ic [] with h2 | h2
    · rcases getD_mem_or_eq ((w.getD oc []).getD ic []) kh [] with h3 | h3
      · rcases getD_mem_or_eq (((w.getD oc []).getD ic []).getD kh []) kw 0 with h4 | h4
        · exact hzero _ h1 _ h2 _ h3 _ h4
        · exact h4
      · rw [h3]
        simp
    · rw [h2]
      simp
  · rw [h1]
    simp

/-- C6: if every kernel weight is 0, every cell of every successful `forward`
output is 0, whatever the input values, stride, and padding mode. -/
theorem C6_zero_kernel (l : ConvolutionLayer)
    (hzero : ∀ t ∈ l.kernel_weights, ∀ m ∈ t, ∀ r ∈ m, ∀ q ∈ r, q = (0 : ℚ))
    (input out : Tensor3) (hok : l.forward input = .ok out) :
    ∀ ch ∈ out, ∀ row ∈ ch, ∀ q ∈ row, q = 0 := by
  obtain ⟨-, -, OH, OW, ph, pw, -, -, -, rfl⟩ := forward_ok_inv l input out hok
  intro ch hch row hrow q hq
  simp only [List.mem_map] at hch
  obtain ⟨oc, -, rfl⟩ := hch
  simp only [List.mem_map] at hrow
  obtain ⟨oh, -, rfl⟩ := hrow
  simp only [List.mem_map] at hq
  obtain ⟨ow, -, rfl⟩ := hq
  unfold ConvolutionLayer.cellSum
  refine Finset.sum_eq_zero fun ic _ => Finset.sum_eq_zero fun kh _ =>
    Finset.sum_eq_zero fun kw _ => ?_
  rw [weightAt_zero l.kernel_weights hzero, mul_zero]

/-- All-zero 1×1×1 engine for the C6 witness. -/
def egLayerZero : ConvolutionLayer := ⟨1, 1, 0, 1, 1, [[[[0]]]]⟩

/-- Witness for C6: the all-zero kernel maps `[[[5]]]` to `[[[0]]]`. -/
theorem C6_zero_kernel_witness :
    egLayerZero.forward [[[5]]] = .ok [[[0]]] ∧
    ∀ ch ∈ ([[[(0 : ℚ)]]] : Tensor3), ∀ row ∈ ch, ∀ q ∈ row, q = 0 := by
  have hout : egLayerZero.forward [[[5]]] = .ok [[[0]]] := by
    rw [forward_eq_ok egLayerZero [[[5]]] (by decide) rfl 1 1 0 0 (by rfl)
      (by decide) (by decide)]
    simp [egLayerZero, List.range_succ, ConvolutionLayer.cellSum, Finset.sum_range_one,
      pixelValue, cellAt, weightAt]
  exact ⟨hout, C6_zero_kernel egLayerZero (by decide) [[[5]]] [[[0]]] hout⟩

/-- C7: a 1×1 kernel with weight 1 exactly at matching in/out channel pairs,
stride 1, VALID padding, reproduces each input channel unchanged. -/
theorem C7_identity (l : ConvolutionLayer) (input : Tensor3) (H W : ℕ)
    (hk : l.kernel_size = 1) (hs : l.stride = 1) (hpm : l.padding_mode = 0)
    (hoc : l.output_channels = l.input_channels)
    (hw : ∀ oc ic, oc < l.output_channels → ic < l.input_channels →
      weightAt l.kernel_weights oc ic 0 0 = if oc = ic then 1 else 0)
    (hH : (input.getD 0 []).length = H)
    (hW : ((input.getD 0 []).getD 0 []).length = W)
    (hlen : input.length = l.input_channels)
    (hHpos : 0 < H) (hWpos : 0 < W) :
    ∃ out, l.forward input = .ok out ∧
      out.length = l.output_channels ∧
      ∀ oc oh ow : ℕ, oc < l.output_channels → oh < H → ow < W →
        cellAt out oc oh ow = cellAt input oc oh ow := by
  have hHk : l.kernel_size ≤ H := by omega
  have hWk : l.kernel_size ≤ W := by omega
  have hgeom := outputGeometry_valid l hpm H W hHk hWk
  have hOH : (H - l.kernel_size) / l.stride + 1 = H := by
    rw [hk, hs]
    simp [Nat.div_one]
    omega
  have hOW : (W - l.kernel_size) / l.stride + 1 = W := by
    rw [hk, hs]
    simp [Nat.div_one]
    omega
  rw [hOH, hOW] at hgeom
  have hne : ¬ (input.isEmpty ∨ (input.getD 0 []).isEmpty ∨
      ((input.getD 0 []).getD 0 []).isEmpty) := by
    simp only [List.isEmpty_iff, not_or]
    refine ⟨?_, ?_, ?_⟩
    · intro h0
      rw [h0] at hH
      simp at hH
      omega
    · intro h0
      rw [h0] at hH
      simp at hH
      omega
    · intro h0
      rw [h0] at hW
      simp at hW
      omega
  rw [← hH, ← hW] at hgeom
  have hfwd := forward_eq_ok l input hne hlen _ _ _ _ hgeom
    (by exact_mod_cast hH ▸ hHpos) (by exact_mod_cast hW ▸ hWpos)
  refine ⟨_, hfwd, by simp, ?_⟩
  intro oc oh ow hoclt hohlt howlt
  unfold cellAt
  rw [getD_map_range _ hoclt,
    getD_map_range _ (by rw [Int.toNat_natCast, hH]; exact hohlt),
    getD_map_range _ (by rw [Int.toNat_natCast, hW]; exact howlt)]
  unfold ConvolutionLayer.cellSum
  simp only [hk, hs, Finset.sum_range_one]
  rw [Finset.sum_eq_single oc]
  · have hpix : pixelValue input (input.getD 0 []).length
        ((input.getD 0 []).getD 0 []).length oc ((oh * 1 + 0 : ℕ) - (0 : ℤ))
        ((ow * 1 + 0 : ℕ) - (0 : ℤ)) = cellAt input oc oh ow := by
      unfold pixelValue
      rw [if_pos (by push_cast; omega)]
      have e1 : (((oh * 1 + 0 : ℕ) : ℤ) - 0).toNat = oh := by omega
      have e2 : (((ow * 1 + 0 : ℕ) : ℤ) - 0).toNat = ow := by omega
      rw [e1, e2]
    rw [hpix, hw oc oc hoclt (hoc ▸ hoclt), if_pos rfl, mul_one]
    rfl
  · intro b hb hbne
    rw [hw oc b hoclt (Finset.mem_range.mp hb), if_neg (fun h => hbne h.symm), mul_zero]
  · intro habs
    exact absurd (Finset.mem_range.mpr (hoc ▸ hoclt)) habs

/-- Witness for C7: the identity engine reproduces `[[[9]]]`. -/
theorem C7_identity_witness :
    ∃ out, egLayer1.forward [[[9]]] = .ok out ∧
      out.length = egLayer1.output_channels ∧
      ∀ oc oh ow : ℕ, oc < egLayer1.output_channels → oh < 1 → ow < 1 →
        cellAt out oc oh ow = cellAt [[[9]]] oc oh ow :=
  C7_identity egLayer1 [[[9]]] 1 1 rfl rfl rfl rfl
    (fun oc ic h1 h2 => by
      simp only [egLayer1] at h1 h2
      have hoc0 : oc = 0 := by omega
      have hic0 : ic = 0 := by omega
      subst hoc0
      subst hic0
      decide)
    rfl rfl rfl (by decide) (by decide)

/-- C8: the `forward` pass is a pure function of the engine's stored configuration,
kernel weights, and the input tensor: engines with equal state on equal
inputs return equal outputs, so repeated calls are deterministic. -/
theorem C8_forward_pure (l1 l2 : ConvolutionLayer) (input1 input2 : Tensor3)
    (hks : l1.kernel_size = l2.kernel_size) (hst : l1.stride = l2.stride)
    (hpm : l1.padding_mode = l2.padding_mode)
    (hic : l1.input_channels = l2.input_channels)
    (hoc : l1.output_channels = l2.output_channels)
    (hw : l1.kernel_weights = l2.kernel_weights)
    (hin : input1 = input2) :
    l1.forward input1 = l2.forward input2 := by
  have h12 : l1 = l2 := by
    cases l1
    cases l2
    simp_all
  rw [h12, hin]

/-- Witness for C8: two calls at the same engine and input agree. -/
theorem C8_forward_pure_witness :
    egLayer1.forward [[[1]]] = egLayer1.forward [[[1]]] :=
  C8_forward_pure egLayer1 egLayer1 [[[1]]] [[[1]]] rfl rfl rfl rfl rfl rfl rfl

/-- A valid 2-input-channel engine with kernel 2 for the C9 counterexample. -/
def lC9ce : ConvolutionLayer := ⟨2, 1, 0, 2, 1, [[[[0, 0], [0, 0]], [[0, 0], [0, 0]]]]⟩

/-- Ragged input: 2 channels, first 1×1, second 2×1. -/
def raggedTall : Tensor3 := [[[1]], [[1], [2]]]

/-- C9 counterexample: a ragged input whose channel count matches the
configuration on which `forward` does raise a shape error (the first
channel is smaller than the kernel, so the derived output dimension is 0). -/
theorem C9_counterexample :
    raggedTall.length = lC9ce.input_channels ∧
    (raggedTall.getD 1 []).length ≠ (raggedTall.getD 0 []).length ∧
    lC9ce.forward raggedTall =
      .error "Output dimensions are non-positive. Check kernel size, stride, and input dimensions." :=
  ⟨rfl, by decide, by rfl⟩

/-- A valid 2-input-channel engine with kernel 1 for the C9 accepted ragged input. -/
def lC9ok : ConvolutionLayer := ⟨1, 1, 0, 2, 1, [[[[1]], [[1]]]]⟩

/-- Ragged input: 2 channels, first 1×1, second empty. -/
def raggedEmpty : Tensor3 := [[[5]], []]

/-- C9 (amended): whether `forward` accepts or rejects depends only on the
channel count and the first channel — later channels are never re-validated,
so raggedness alone never causes a shape error — and the loop's in-range
guard is derived from the first channel only, so an accepted ragged input can
drive an access past the end of a later channel (here channel 1 is empty
while the guard admits row 0 of a 1-row first channel). -/
theorem C9_first_channel_only :
    (∀ (l : ConvolutionLayer) (inp1 inp2 : Tensor3),
      inp1.length = inp2.length → inp1.getD 0 [] = inp2.getD 0 [] →
      ((∃ t, l.forward inp1 = .ok t) ↔ (∃ t, l.forward inp2 = .ok t))) ∧
    (∃ t, lC9ok.forward raggedEmpty = .ok t) ∧
    0 < (raggedEmpty.getD 0 []).length ∧ (raggedEmpty.getD 1 []).length = 0 := by
  refine ⟨?_, ?_, by decide, by decide⟩
  · intro l inp1 inp2 hl hch
    have he : inp1.isEmpty = inp2.isEmpty := by
      cases inp1 <;> cases inp2 <;> simp_all
    rw [forward_ok_iff, forward_ok_iff, he, hl, hch]
  · exact ⟨_, forward_eq_ok lC9ok raggedEmpty (by decide) rfl 1 1 0 0 (by rfl)
      (by decide) (by decide)⟩

/-- Witness for C9's amended theorem: an empty and a non-empty second channel
are accepted alike. -/
theorem C9_first_channel_only_witness :
    (∃ t, lC9ok.forward raggedEmpty = .ok t) ↔
      (∃ t, lC9ok.forward [[[5]], [[9]]] = .ok t) :=
  C9_first_channel_only.1 lC9ok raggedEmpty [[[5]], [[9]]] rfl rfl

end CNN
